import Mathlib

/-!
# Verification of the `MemoryService` document store

Shallow embedding of `src/learning-agent/services/memory_service.py`
(`MemoryService`: store, get, search, delete, stats, cleanup, lifecycle).

Modelling conventions:
* Python strings holding document content are embedded as `List Char`
  (Python slices/`len` operate on characters); string keys, ids and
  ISO-timestamp values stay `String` (Python `<` on `str` is lexicographic
  on code points, matching Lean's `String` order).
* Python `dict` values are association lists with `alistInsert`/`alistLookup`
  giving dict update/lookup semantics (last write for a key wins, other
  keys untouched).
* The ChromaDB backend is explicit: the collection is an association list
  from ids to stored documents; a backend call that raises is modelled by a
  `fault : Bool` flag on each operation that wraps the call in `try/except`.
* `datetime.now()` is passed in as an explicit ISO-string / parameter.
* Search distances are floats in the source; only their ordering is used
  (sort key comparisons), so they are embedded as `Int`.
-/

/-- Scalar metadata value (Python str / int / bool as stored by the service).
`content_length` is a non-negative int, hence `Nat`. -/
inductive MetaValue where
  | s (v : String)
  | n (v : Nat)
  | b (v : Bool)
deriving DecidableEq, Repr

/-- A Python dict with string keys, as an association list (unique keys by
construction through `alistInsert`). -/
abbrev Meta := List (String × MetaValue)

/-- Dict update semantics: replace the value at an existing key in place,
otherwise append the binding. -/
def alistInsert {α : Type} (k : String) (v : α) : List (String × α) → List (String × α)
  | [] => [(k, v)]
  | (k', v') :: rest => if k' = k then (k, v) :: rest else (k', v') :: alistInsert k v rest

/-- Dict lookup semantics. -/
def alistLookup {α : Type} (k : String) : List (String × α) → Option α
  | [] => none
  | (k', v) :: rest => if k' = k then some v else alistLookup k rest

/-- A document as held by the ChromaDB collection: the text passed to
`collection.add` (the embedding projection) plus its metadata. -/
structure StoredDoc where
  content : List Char
  metadata : Meta
deriving DecidableEq, Repr

/-- The ChromaDB collection: ids mapped to stored documents. -/
abbrev Collection := List (String × StoredDoc)

/-- Result of `store_document`: the success dict
`{stored: True, doc_id, content_length, timestamp, metadata}` or the failure
dict `{stored: False, error, doc_id}`. -/
inductive StoreResult where
  | ok (docId : String) (contentLength : Nat) (timestamp : String) (metadata : Meta)
  | err (docId : String)
deriving DecidableEq, Repr

/-- `MemoryService.store_document` (memory_service.py, lines 75-124).
`now` is `datetime.now().isoformat()`; `docId` is the caller-supplied id or
the one generated from the md5 hash and timestamp (id generation is
abstracted as a parameter — no claim depends on the hash). `fault` models
the backend `collection.add` raising. -/
def storeDocument (fault : Bool) (now : String) (content : List Char) (docId : String)
    (metadata : Meta) (c : Collection) : Collection × StoreResult :=
  let docMetadata := alistInsert "content_length" (.n content.length)
    (alistInsert "created_at" (.s now) metadata)
  let embeddingContent := if content.length > 8000 then content.take 8000 else content
  if fault then
    (c, .err docId)
  else
    (alistInsert docId ⟨embeddingContent, docMetadata⟩ c,
     .ok docId content.length now docMetadata)

/-- A `get_document` success value: `{doc_id, content, metadata}`. -/
structure GotDoc where
  docId : String
  content : List Char
  metadata : Meta
deriving DecidableEq, Repr

/-- `MemoryService.get_document` (memory_service.py, lines 189-216).
`collection.get(ids=[doc_id])` returns empty lists for a missing id, so the
truthiness guard `results["documents"] and results["documents"][0]` is:
present and with non-empty content. Both the miss branch and the `except`
branch return `None`. -/
def getDocument (fault : Bool) (c : Collection) (docId : String) : Option GotDoc :=
  if fault then none
  else
    match alistLookup docId c with
    | none => none
    | some d => if d.content = [] then none
        else some ⟨docId, d.content, d.metadata⟩

/-- The lifecycle-relevant state of a `MemoryService` instance:
`collection_name`, whether `self.client` / `self.collection` are not `None`,
and the `_initialized` flag (memory_service.py, lines 28-38). -/
structure ServiceState where
  collectionName : String
  clientPresent : Bool
  collectionPresent : Bool
  initialized : Bool
deriving DecidableEq, Repr

/-- `MemoryService.__init__` (lines 28-38): everything unset. -/
def mkService (name : String) : ServiceState :=
  ⟨name, false, false, false⟩

/-- `MemoryService.initialize` (lines 40-68): a no-op when `_initialized` is
already set, otherwise opens the client and collection and sets the flag. -/
def initializeService (s : ServiceState) : ServiceState :=
  if s.initialized then s
  else { s with clientPresent := true, collectionPresent := true, initialized := true }

/-- `MemoryService._ensure_initialized` (lines 70-73): `true` iff the
operation proceeds; `false` iff it raises the `RuntimeError`
("Memory service not initialized"). -/
def ensureInitialized (s : ServiceState) : Bool :=
  s.initialized && s.collectionPresent

/-- `MemoryService.close` (lines 331-350): when a client exists, drop the
collection and client references and clear `_initialized`; otherwise a
no-op. -/
def closeService (s : ServiceState) : ServiceState :=
  if s.clientPresent then
    { s with collectionPresent := false, clientPresent := false, initialized := false }
  else s

/-- Lexicographic strict order on character lists, comparing code points —
executable, and equivalent to the standard list order (`charListLt_iff`). -/
def charListLt : List Char → List Char → Bool
  | [], [] => false
  | [], _ :: _ => true
  | _ :: _, [] => false
  | a :: as, b :: bs => if a < b then true else if b < a then false else charListLt as bs

/-- Python's `str <`: lexicographic comparison by code point
(`pyStrLt_iff` relates it to Lean's `String` order). -/
def pyStrLt (a b : String) : Bool :=
  charListLt a.data b.data

/-- The per-document age test of `cleanup_old_documents` (lines 310-314):
`"created_at" in metadata`, `isinstance(created_at, str)` and
`created_at < cutoff_iso` (Python string `<`, i.e. lexicographic). -/
def isOldMeta (cutoffIso : String) (m : Meta) : Bool :=
  match alistLookup "created_at" m with
  | some (.s created) => pyStrLt created cutoffIso
  | _ => false

/-- The ids collected into `old_doc_ids` by the scan loop (lines 305-314). -/
def oldDocIds (cutoffIso : String) (c : Collection) : List String :=
  (c.filter fun p => isOldMeta cutoffIso p.2.metadata).map (·.1)

/-- Result dict of `cleanup_old_documents`:
`{removed, cutoff_date, max_age_days}` on success, `{removed: 0, error}` on
a backend fault. -/
inductive CleanupResult where
  | ok (removed : Nat) (cutoffDate : String) (maxAgeDays : Nat)
  | err (removed : Nat)
deriving DecidableEq, Repr

/-- `MemoryService.cleanup_old_documents` (lines 286-329). `cutoffIso` is
`(datetime.now() - timedelta(days=max_age_days)).isoformat()`, passed in as
the explicit clock value. `collection.delete(ids=old_doc_ids)` removes
exactly the documents whose id is in the list (the `if old_doc_ids:` guard
is behaviourally the identity filter when the list is empty). -/
def cleanupOldDocuments (fault : Bool) (cutoffIso : String) (maxAgeDays : Nat)
    (c : Collection) : Collection × CleanupResult :=
  if fault then (c, .err 0)
  else
    let old := oldDocIds cutoffIso c
    (c.filter fun p => !(old.contains p.1), .ok old.length cutoffIso maxAgeDays)

/-- The per-metadata contribution to `total_length` in
`get_collection_stats` (lines 259-263): `content_length` is added when
present and `isinstance(content_length, (int, float))`. Python's `bool` is
an `int` subclass, so a boolean value counts as 0 or 1. -/
def contentLengthContribution (m : Meta) : Nat :=
  match alistLookup "content_length" m with
  | some (.n k) => k
  | some (.b v) => if v then 1 else 0
  | _ => 0

/-- Result dict of `get_collection_stats`. -/
structure Stats where
  collectionName : String
  totalDocuments : Nat
  totalContentLength : Nat
  avgContentLength : Nat
  initialized : Bool
deriving DecidableEq, Repr

/-- The sample drawn by `collection.get(limit=min(100, count))`
(line 254): the first `min(100, count)` documents of the collection. -/
def statsSample (c : Collection) : Collection :=
  c.take (min 100 c.length)

/-- `MemoryService.get_collection_stats` (lines 240-284). On a backend
fault the `except` branch returns zeroed statistics. `avg_length` is
`total_length // len(sample_results["metadatas"])` when the sampled
metadata list is non-empty, else `0` (floor division, `Nat.div`). -/
def getCollectionStats (fault : Bool) (name : String) (initialized : Bool)
    (c : Collection) : Stats :=
  if fault then ⟨name, 0, 0, 0, initialized⟩
  else
    let count := c.length
    let sample := statsSample c
    let totalLength := (sample.map fun p => contentLengthContribution p.2.metadata).sum
    let avgLength := if sample.isEmpty then 0 else totalLength / sample.length
    ⟨name, count, totalLength, avgLength, initialized⟩

/-- The backend response of `collection.query` for a single query text
(lines 145-165): the inner per-query lists. A falsy/absent `distances`/
`metadatas`/`ids` entry is the empty list. -/
structure QueryResult where
  documents : List (List Char)
  distances : List Int
  metadatas : List Meta
  ids : List String
deriving DecidableEq, Repr

/-- One formatted search hit, `doc_data` in the loop of lines 167-177.
`doc_id` is `None` when the ids list is too short. -/
structure DocData where
  docId : Option String
  content : List Char
  contentPreview : List Char
  metadata : Meta
  distance : Int
deriving DecidableEq, Repr

/-- The `for i, doc in enumerate(docs_list)` loop (lines 167-177).
`distances_list[i]` raises `IndexError` when out of range — modelled as
`none`, which the surrounding `except` turns into `[]`. `ids_list[i] if
i < len(ids_list) else None` and `metadatas_list[i] if i < len(...) else {}`
are the guarded accesses. -/
def buildDocs (distances : List Int) (metadatas : List Meta) (ids : List String) :
    Nat → List (List Char) → Option (List DocData)
  | _, [] => some []
  | i, doc :: rest =>
    match distances.get? i with
    | none => none
    | some dist =>
      match buildDocs distances metadatas ids (i + 1) rest with
      | none => none
      | some l =>
        some (⟨ids.get? i, doc,
          if doc.length > 200 then doc.take 200 ++ "...".toList else doc,
          (metadatas.get? i).getD [], dist⟩ :: l)

/-- The formatting stage of `search_documents` before sorting: the guard
`if results["documents"] and results["documents"][0]` leaves `documents`
as `[]` when the backend returned no hits; `none` signals an `IndexError`
inside the loop. -/
def formatDocuments (r : QueryResult) : Option (List DocData) :=
  if r.documents.isEmpty then some []
  else buildDocs r.distances r.metadatas r.ids 0 r.documents

/-- Stable insertion of a hit into an already-processed list, by `distance`:
the embedding of Python's stable `sorted(documents, key=lambda x:
x["distance"])` (line 180) as insertion sort. An element is placed before
the first existing element with a distance `≥` its own, so an earlier hit
precedes later hits of equal distance. -/
def insertByDist (x : DocData) : List DocData → List DocData
  | [] => [x]
  | y :: ys => if x.distance ≤ y.distance then x :: y :: ys else y :: insertByDist x ys

/-- Stable sort by `distance` (Python `sorted` with the distance key). -/
def sortByDist : List DocData → List DocData
  | [] => []
  | x :: xs => insertByDist x (sortByDist xs)

/-- `MemoryService.search_documents` (lines 126-187): `outcome = none`
models `collection.query` raising; any exception inside the `try` block is
caught and yields `[]`. -/
def searchDocuments (outcome : Option QueryResult) : List DocData :=
  match outcome with
  | none => []
  | some r =>
    match formatDocuments r with
    | none => []
    | some documents => sortByDist documents

-- ## Association-list lemmas

theorem alistLookup_alistInsert_self {α : Type} (k : String) (v : α)
    (m : List (String × α)) : alistLookup k (alistInsert k v m) = some v := by
  induction m with
  | nil => simp [alistInsert, alistLookup]
  | cons hd tl ih =>
    obtain ⟨k', v'⟩ := hd
    by_cases h : k' = k
    · simp [alistInsert, alistLookup, h]
    · simp [alistInsert, alistLookup, h, ih]

theorem alistLookup_alistInsert_ne {α : Type} {k k' : String} (v : α)
    (m : List (String × α)) (h : k' ≠ k) :
    alistLookup k' (alistInsert k v m) = alistLookup k' m := by
  have hk : k ≠ k' := Ne.symm h
  induction m with
  | nil => simp [alistInsert, alistLookup, hk]
  | cons hd tl ih =>
    obtain ⟨k'', v''⟩ := hd
    by_cases h2 : k'' = k
    · subst h2
      simp [alistInsert, alistLookup, hk]
    · by_cases h3 : k'' = k'
      · simp [alistInsert, alistLookup, h2, h3, h]
      · simp [alistInsert, alistLookup, h2, h3, ih]

/-- The ordering relation of the search sort: non-decreasing `distance`. -/
def distLE (a b : DocData) : Prop := a.distance ≤ b.distance

/-- A concrete content of 8001 characters, one past the embedding limit. -/
def longContent : List Char := List.replicate 8001 'a'

-- ## String-order lemmas

theorem charListLt_iff (as bs : List Char) : charListLt as bs = true ↔ List.lt as bs := by
  induction as generalizing bs with
  | nil =>
    cases bs with
    | nil =>
      simp [charListLt]
      intro h
      cases h
    | cons b bs' =>
      simp [charListLt]
      exact List.lt.nil b bs'
  | cons a as' ih =>
    cases bs with
    | nil =>
      simp [charListLt]
      intro h
      cases h
    | cons b bs' =>
      unfold charListLt
      by_cases h1 : a < b
      · simp [h1]
        exact List.lt.head _ _ h1
      · by_cases h2 : b < a
        · simp [h1, h2]
          intro h
          cases h with
          | head _ _ hl => exact h1 hl
          | tail hh1 hh2 hh3 => exact hh2 h2
        · simp [h1, h2, ih]
          constructor
          · intro h
            exact List.lt.tail h1 h2 h
          · intro h
            cases h with
            | head _ _ hl => exact absurd hl h1
            | tail hh1 hh2 hh3 => exact hh3

theorem pyStrLt_iff (a b : String) : pyStrLt a b = true ↔ a < b := by
  rw [pyStrLt, charListLt_iff, List.lt_iff_lex_lt]
  exact String.lt_iff_toList_lt.symm

-- ## Cleanup helper lemmas

theorem nodupKeys_mem_unique {α : Type} {c : List (String × α)}
    (hnd : (c.map (·.1)).Nodup) {id : String} {d d' : α}
    (h1 : (id, d) ∈ c) (h2 : (id, d') ∈ c) : d = d' := by
  induction c with
  | nil => cases h1
  | cons hd tl ih =>
    rw [List.map_cons, List.nodup_cons] at hnd
    rcases List.mem_cons.mp h1 with he1 | ht1 <;>
      rcases List.mem_cons.mp h2 with he2 | ht2
    · rw [← he2] at he1
      exact congrArg Prod.snd he1
    · exfalso
      apply hnd.1
      rw [← he1]
      exact List.mem_map_of_mem (·.1) ht2
    · exfalso
      apply hnd.1
      rw [← he2]
      exact List.mem_map_of_mem (·.1) ht1
    · exact ih hnd.2 ht1 ht2

theorem mem_oldDocIds {cutoff : String} {c : Collection} {id : String} :
    id ∈ oldDocIds cutoff c ↔
      ∃ d, (id, d) ∈ c ∧ isOldMeta cutoff d.metadata = true := by
  unfold oldDocIds
  rw [List.mem_map]
  constructor
  · rintro ⟨p, hp, hfst⟩
    rw [List.mem_filter] at hp
    exact ⟨p.2, by rw [← hfst]; exact hp.1, hp.2⟩
  · rintro ⟨d, hmem, hold⟩
    exact ⟨(id, d), List.mem_filter.mpr ⟨hmem, hold⟩, rfl⟩

theorem mem_cleanup_of_notOld {cutoff : String} {days : Nat} {c : Collection}
    {id : String} {d : StoredDoc} (hnd : (c.map (·.1)).Nodup)
    (hmem : (id, d) ∈ c) (hno : isOldMeta cutoff d.metadata = false) :
    (id, d) ∈ (cleanupOldDocuments false cutoff days c).1 := by
  have hid : id ∉ oldDocIds cutoff c := by
    intro hin
    obtain ⟨d', hd', hold⟩ := mem_oldDocIds.mp hin
    rw [nodupKeys_mem_unique hnd hd' hmem, hno] at hold
    cases hold
  unfold cleanupOldDocuments
  simp only [Bool.false_eq_true, if_false]
  refine List.mem_filter.mpr ⟨hmem, ?_⟩
  simp only [Bool.not_eq_true']
  cases hcon : (oldDocIds cutoff c).contains id
  · rfl
  · exact absurd (List.mem_of_elem_eq_true hcon) hid

theorem nodup_oldDocIds {cutoff : String} {c : Collection}
    (hnd : (c.map (·.1)).Nodup) : (oldDocIds cutoff c).Nodup := by
  unfold oldDocIds
  exact hnd.sublist ((List.filter_sublist c).map (·.1))

theorem not_mem_cleanup_ids_of_old {cutoff : String} {days : Nat}
    {c : Collection} {id : String} (hin : id ∈ oldDocIds cutoff c) :
    id ∉ ((cleanupOldDocuments false cutoff days c).1.map (·.1)) := by
  intro hmem
  obtain ⟨p, hp, hfst⟩ := List.mem_map.mp hmem
  unfold cleanupOldDocuments at hp
  simp only [Bool.false_eq_true, if_false] at hp
  have := (List.mem_filter.mp hp).2
  rw [Bool.not_eq_true'] at this
  rw [hfst] at this
  have h2 : (oldDocIds cutoff c).contains id = true := List.elem_eq_true_of_mem hin
  rw [h2] at this
  cases this

-- ## Stable-sort helper lemmas

theorem mem_insertByDist {x z : DocData} {l : List DocData} :
    z ∈ insertByDist x l ↔ z = x ∨ z ∈ l := by
  induction l with
  | nil => simp [insertByDist]
  | cons y ys ih =>
    unfold insertByDist
    split
    · simp
    · rw [List.mem_cons, List.mem_cons, ih]
      tauto

theorem pairwise_insertByDist {x : DocData} {l : List DocData}
    (h : l.Pairwise distLE) : (insertByDist x l).Pairwise distLE := by
  induction l with
  | nil => simp [insertByDist]
  | cons y ys ih =>
    rw [List.pairwise_cons] at h
    unfold insertByDist
    split
    · rename_i hle
      rw [List.pairwise_cons]
      refine ⟨?_, List.pairwise_cons.mpr h⟩
      intro z hz
      rcases List.mem_cons.mp hz with hz | hz
      · rw [hz]; exact hle
      · exact le_trans hle (h.1 z hz)
    · rename_i hgt
      rw [List.pairwise_cons]
      refine ⟨?_, ih h.2⟩
      intro z hz
      rcases mem_insertByDist.mp hz with hz | hz
      · rw [hz]
        exact le_of_lt (lt_of_not_le hgt)
      · exact h.1 z hz

theorem pairwise_sortByDist (l : List DocData) : (sortByDist l).Pairwise distLE := by
  induction l with
  | nil => simp [sortByDist]
  | cons x xs ih => exact pairwise_insertByDist ih

theorem filter_insertByDist {x : DocData} {d : Int} {m : List DocData} :
    (insertByDist x m).filter (fun a => decide (a.distance = d)) =
      if x.distance = d then x :: m.filter (fun a => decide (a.distance = d))
      else m.filter (fun a => decide (a.distance = d)) := by
  induction m with
  | nil => by_cases hx : x.distance = d <;> simp [insertByDist, hx]
  | cons y ys ih =>
    unfold insertByDist
    split
    · rename_i hle
      by_cases hx : x.distance = d
      · simp [List.filter_cons, hx]
      · simp [List.filter_cons, hx]
    · rename_i hgt
      by_cases hx : x.distance = d
      · have hy : ¬ y.distance = d := by
          intro hy
          exact hgt (by rw [hx, hy])
        simp [List.filter_cons, hy, ih, hx]
      · by_cases hy : y.distance = d <;>
          simp [List.filter_cons, hy, ih, hx]

theorem filter_sortByDist (d : Int) (l : List DocData) :
    (sortByDist l).filter (fun a => decide (a.distance = d)) =
      l.filter (fun a => decide (a.distance = d)) := by
  induction l with
  | nil => rfl
  | cons x xs ih =>
    unfold sortByDist
    rw [filter_insertByDist]
    by_cases hx : x.distance = d <;> simp [List.filter_cons, hx, ih]

-- ## Store/get round-trip helper

theorem getDocument_storeDocument (now : String) (content : List Char) (docId : String)
    (metadata : Meta) (c : Collection) (h : content ≠ []) :
    getDocument false (storeDocument false now content docId metadata c).1 docId =
      some ⟨docId, if content.length > 8000 then content.take 8000 else content,
        alistInsert "content_length" (.n content.length)
          (alistInsert "created_at" (.s now) metadata)⟩ := by
  have hne : (if content.length > 8000 then content.take 8000 else content) ≠ [] := by
    split
    · rename_i hlen
      intro hempty
      have : (content.take 8000).length = 0 := by rw [hempty]; rfl
      rw [List.length_take] at this
      omega
    · exact h
  unfold storeDocument getDocument
  simp only [Bool.false_eq_true, if_false, alistLookup_alistInsert_self, hne]

-- ## Claim theorems

theorem longContent_length : longContent.length = 8001 := by
  show (List.replicate 8001 'a').length = 8001
  exact List.length_replicate ..

theorem longContent_ne_nil : longContent ≠ [] := by
  intro hnil
  have := longContent_length
  rw [hnil] at this
  simp at this

theorem roundtrip_truncates (now docId : String) (metadata : Meta) (c : Collection)
    (content : List Char) (h : content.length > 8000) :
    ((getDocument false (storeDocument false now content docId metadata c).1 docId).map
      fun g => g.content) ≠ some content := by
  rw [getDocument_storeDocument _ _ _ _ _ (by
    intro hnil
    rw [hnil] at h
    simp at h)]
  intro hcontra
  have h2 : (if content.length > 8000 then content.take 8000 else content) = content :=
    Option.some.inj hcontra
  rw [if_pos h] at h2
  have hcl := congrArg List.length h2
  rw [List.length_take] at hcl
  omega

/-- C1 counterexample: the round-trip does not return the original content
when it is longer than 8000 characters. Storing 8001 copies of 'a' and
reading the document back yields the 8000-character truncation, because
`store_document` passes only `embedding_content` to `collection.add`. -/
theorem storeGet_roundtrip_counterexample :
    ((getDocument false
        (storeDocument false "2025-01-01T00:00:00" longContent "d1" [] []).1
        "d1").map fun g => g.content) ≠ some longContent :=
  roundtrip_truncates "2025-01-01T00:00:00" "d1" [] [] longContent
    (by rw [longContent_length]; norm_num)

/-- C1 (amended): for every non-empty content, caller metadata and prior
collection state, `store_document` followed by `get_document` on the same id
returns the first 8000 characters of the content (hence the content itself
when its length is at most 8000) and metadata that agrees with the caller
metadata on every key other than `created_at`/`content_length` and carries
the system-set `created_at` and `content_length`. -/
theorem storeGet_roundtrip_amended (now : String) (content : List Char) (docId : String)
    (metadata : Meta) (c : Collection) (h : content ≠ []) :
    ∃ g, getDocument false (storeDocument false now content docId metadata c).1 docId =
        some g ∧
      g.content = (if content.length > 8000 then content.take 8000 else content) ∧
      (content.length ≤ 8000 → g.content = content) ∧
      (∀ k v, k ≠ "created_at" → k ≠ "content_length" →
        alistLookup k metadata = some v → alistLookup k g.metadata = some v) ∧
      alistLookup "created_at" g.metadata = some (.s now) ∧
      alistLookup "content_length" g.metadata = some (.n content.length) := by
  refine ⟨_, getDocument_storeDocument now content docId metadata c h, rfl, ?_, ?_, ?_, ?_⟩
  · intro hle
    show (if content.length > 8000 then content.take 8000 else content) = content
    rw [if_neg (by omega)]
  · intro k v hk1 hk2 hkv
    show alistLookup k (alistInsert "content_length" _ (alistInsert "created_at" _ _)) = _
    rw [alistLookup_alistInsert_ne _ _ hk2, alistLookup_alistInsert_ne _ _ hk1]
    exact hkv
  · show alistLookup "created_at" (alistInsert "content_length" _
      (alistInsert "created_at" _ _)) = _
    rw [alistLookup_alistInsert_ne _ _ (by decide), alistLookup_alistInsert_self]
  · show alistLookup "content_length" (alistInsert "content_length" _ _) = _
    rw [alistLookup_alistInsert_self]

/-- C1 witness: the amended round-trip at the concrete content "hi" with
caller metadata {source: "unit"} on an empty collection. -/
theorem storeGet_roundtrip_amended_witness :
    ∃ g, getDocument false
        (storeDocument false "2025-01-01T00:00:00" ['h', 'i'] "d0"
          [("source", .s "unit")] []).1 "d0" = some g ∧
      g.content = (if ['h', 'i'].length > 8000 then ['h', 'i'].take 8000 else ['h', 'i']) ∧
      (['h', 'i'].length ≤ 8000 → g.content = ['h', 'i']) ∧
      (∀ k v, k ≠ "created_at" → k ≠ "content_length" →
        alistLookup k [("source", MetaValue.s "unit")] = some v →
        alistLookup k g.metadata = some v) ∧
      alistLookup "created_at" g.metadata = some (.s "2025-01-01T00:00:00") ∧
      alistLookup "content_length" g.metadata = some (.n ['h', 'i'].length) :=
  storeGet_roundtrip_amended "2025-01-01T00:00:00" ['h', 'i'] "d0"
    [("source", .s "unit")] [] (by decide)

/-- C9: storing a document with empty-string content succeeds, yet
`get_document` on its id returns `None`: the presence check is the
truthiness of `results["documents"][0]`, and the empty string is falsy, so
an empty document is indistinguishable from absence. -/
theorem emptyContent_get_notFound (now docId : String) (metadata : Meta) (c : Collection) :
    (∃ m, (storeDocument false now [] docId metadata c).2 = .ok docId 0 now m) ∧
    getDocument false (storeDocument false now [] docId metadata c).1 docId = none := by
  constructor
  · exact ⟨_, rfl⟩
  · unfold storeDocument getDocument
    simp [alistLookup_alistInsert_self]

/-- C10: system-managed metadata wins. For every caller metadata dict —
including one that already binds `created_at` or `content_length` — the
stored metadata and the metadata in the returned success dict bind
`created_at` to the store-time timestamp and `content_length` to the
original content length, and the returned `content_length`/`timestamp`
fields are those system values. -/
theorem systemMetadata_precedence (now : String) (content : List Char) (docId : String)
    (metadata : Meta) (c : Collection) :
    (∃ m, (storeDocument false now content docId metadata c).2 =
        .ok docId content.length now m ∧
      alistLookup "created_at" m = some (.s now) ∧
      alistLookup "content_length" m = some (.n content.length)) ∧
    (∃ d, alistLookup docId (storeDocument false now content docId metadata c).1 = some d ∧
      alistLookup "created_at" d.metadata = some (.s now) ∧
      alistLookup "content_length" d.metadata = some (.n content.length)) := by
  unfold storeDocument
  simp only [Bool.false_eq_true, if_false]
  constructor
  · refine ⟨_, rfl, ?_, ?_⟩
    · rw [alistLookup_alistInsert_ne _ _ (by decide), alistLookup_alistInsert_self]
    · rw [alistLookup_alistInsert_self]
  · refine ⟨_, alistLookup_alistInsert_self _ _ _, ?_, ?_⟩
    · rw [alistLookup_alistInsert_ne _ _ (by decide), alistLookup_alistInsert_self]
    · rw [alistLookup_alistInsert_self]

/-- C2 counterexample: a backend fault during the lookup and a get on a
missing id both return `None` — there is no result-level distinction, since
the `except` branch of `get_document` returns `None` just like the miss
branch. Here a faulted lookup of a present document equals the fault-free
lookup of an absent one. -/
theorem get_failure_indistinguishable_counterexample :
    getDocument true [("d", ⟨['x'], []⟩)] "d" = none ∧
    getDocument false [] "d" = none := by
  constructor <;> rfl

/-- C2 (amended): `get_document` returns `None` both when the backend
lookup raises and when the id is absent; absence and backend failure are
not distinguishable from the returned value. -/
theorem get_absence_and_failure_both_none (c : Collection) (docId : String) :
    getDocument true c docId = none ∧
    (alistLookup docId c = none → getDocument false c docId = none) := by
  constructor
  · rfl
  · intro h
    unfold getDocument
    simp only [Bool.false_eq_true, if_false, h]

/-- C2 witness: the amended statement at a one-document collection and an
absent id. -/
theorem get_absence_and_failure_both_none_witness :
    getDocument true [("e", ⟨['x'], []⟩)] "d" = none ∧
    getDocument false [("e", ⟨['x'], []⟩)] "d" = none :=
  ⟨(get_absence_and_failure_both_none [("e", ⟨['x'], []⟩)] "d").1,
   (get_absence_and_failure_both_none [("e", ⟨['x'], []⟩)] "d").2 (by decide)⟩

/-- C3 counterexample: closing is not terminal. After `initialize`, `close`,
a second `initialize` brings the service back to a state where
`_ensure_initialized` succeeds — the store re-opens, because `close` resets
`_initialized` to `False` and `initialize` only short-circuits when
`_initialized` is `True`. -/
theorem close_reopen_counterexample :
    ensureInitialized
      (initializeService (closeService (initializeService (mkService "learning_data")))) =
      true := by
  rfl

/-- C3 (amended): once `close()` has run, every operation guarded by
`_ensure_initialized` fails with the `RuntimeError` until `initialize` is
called again — and a later `initialize` does re-open the store (Closed is
not terminal). The hypothesis is the code's own invariant that
`_initialized` implies a live client. -/
theorem close_not_terminal (s : ServiceState)
    (hinv : s.initialized = true → s.clientPresent = true) :
    ensureInitialized (closeService s) = false ∧
    ensureInitialized (initializeService (closeService s)) = true := by
  unfold ensureInitialized closeService initializeService
  by_cases hc : s.clientPresent
  · simp [hc]
  · have hi : s.initialized = false := by
      cases h : s.initialized
      · rfl
      · exact absurd (hinv h) hc
    simp [hc, hi]

/-- C3 witness: the amended statement on the freshly initialized service. -/
theorem close_not_terminal_witness :
    ensureInitialized (closeService (initializeService (mkService "learning_data"))) =
      false ∧
    ensureInitialized
      (initializeService (closeService (initializeService (mkService "learning_data")))) =
      true :=
  close_not_terminal (initializeService (mkService "learning_data")) (by decide)

/-- C4: retention exactness. For a collection with distinct ids and any
cutoff string, a document whose `created_at` string is not lexicographically
below the cutoff survives `cleanup_old_documents` untouched; a document
whose `created_at` string is below the cutoff has its id collected exactly
once into `old_doc_ids` and is absent from the collection afterwards. -/
theorem cleanup_retention_exact (cutoff : String) (days : Nat) (c : Collection)
    (hnd : (c.map (·.1)).Nodup) (id : String) (d : StoredDoc) (created : String)
    (hmem : (id, d) ∈ c)
    (hca : alistLookup "created_at" d.metadata = some (.s created)) :
    (¬ created < cutoff → (id, d) ∈ (cleanupOldDocuments false cutoff days c).1) ∧
    (created < cutoff →
      (oldDocIds cutoff c).count id = 1 ∧
      id ∉ ((cleanupOldDocuments false cutoff days c).1.map (·.1))) := by
  constructor
  · intro hge
    apply mem_cleanup_of_notOld hnd hmem
    unfold isOldMeta
    rw [hca]
    show pyStrLt created cutoff = false
    cases hb : pyStrLt created cutoff
    · rfl
    · exact absurd ((pyStrLt_iff _ _).mp hb) hge
  · intro hlt
    have hold : isOldMeta cutoff d.metadata = true := by
      unfold isOldMeta
      rw [hca]
      show pyStrLt created cutoff = true
      exact (pyStrLt_iff _ _).mpr hlt
    have hin : id ∈ oldDocIds cutoff c := mem_oldDocIds.mpr ⟨d, hmem, hold⟩
    exact ⟨List.count_eq_one_of_mem (nodup_oldDocIds hnd) hin,
      not_mem_cleanup_ids_of_old hin⟩

/-- C4 witness: a two-document collection, one created before the cutoff
(deleted, counted once) and one at the cutoff (retained). -/
theorem cleanup_retention_exact_witness :
    (¬ "2025-07-14" < "2025-07-14" →
      ("keep", (⟨['k'], [("created_at", MetaValue.s "2025-07-14")]⟩ : StoredDoc)) ∈
        (cleanupOldDocuments false "2025-07-14" 90
          [("old", ⟨['o'], [("created_at", .s "2025-01-01")]⟩),
           ("keep", ⟨['k'], [("created_at", .s "2025-07-14")]⟩)]).1) ∧
    ("2025-07-14" < "2025-07-14" →
      (oldDocIds "2025-07-14"
          [("old", ⟨['o'], [("created_at", .s "2025-01-01")]⟩),
           ("keep", ⟨['k'], [("created_at", .s "2025-07-14")]⟩)]).count "keep" = 1 ∧
      "keep" ∉ ((cleanupOldDocuments false "2025-07-14" 90
          [("old", ⟨['o'], [("created_at", .s "2025-01-01")]⟩),
           ("keep", ⟨['k'], [("created_at", .s "2025-07-14")]⟩)]).1.map (·.1))) :=
  cleanup_retention_exact "2025-07-14" 90
    [("old", ⟨['o'], [("created_at", .s "2025-01-01")]⟩),
     ("keep", ⟨['k'], [("created_at", .s "2025-07-14")]⟩)]
    (by decide) "keep" ⟨['k'], [("created_at", .s "2025-07-14")]⟩ "2025-07-14"
    (by decide) (by decide)

/-- C5 counterexample: a malformed `created_at` that is still a string is
deleted. The empty string is not a well-formed ISO-8601 timestamp, yet it
compares lexicographically below any cutoff, so `cleanup_old_documents`
removes the document — the fail-safe only covers a missing key or a
non-string value. -/
theorem cleanup_malformed_counterexample :
    (cleanupOldDocuments false "2025-07-14T00:00:00" 90
      [("d1", ⟨['x'], [("created_at", .s "")]⟩)]).1 = [] ∧
    (cleanupOldDocuments false "2025-07-14T00:00:00" 90
      [("d1", ⟨['x'], [("created_at", .s "")]⟩)]).2 =
      .ok 1 "2025-07-14T00:00:00" 90 := by
  constructor <;> decide

/-- C5 (amended): a document whose metadata has no `created_at` key, or
whose `created_at` value is not a string, is never deleted by
`cleanup_old_documents`, for any cutoff. (A malformed string value is still
compared lexicographically and can be deleted — see the counterexample.) -/
theorem cleanup_failsafe_amended (cutoff : String) (days : Nat) (c : Collection)
    (hnd : (c.map (·.1)).Nodup) (id : String) (d : StoredDoc)
    (hmem : (id, d) ∈ c)
    (hshape : ∀ str, alistLookup "created_at" d.metadata ≠ some (.s str)) :
    (id, d) ∈ (cleanupOldDocuments false cutoff days c).1 := by
  apply mem_cleanup_of_notOld hnd hmem
  unfold isOldMeta
  cases hca : alistLookup "created_at" d.metadata with
  | none => rfl
  | some v =>
    cases v with
    | s str => exact absurd hca (hshape str)
    | n k => rfl
    | b bv => rfl

/-- C5 witness: a document with a numeric `created_at` and one with no
`created_at` key survive a cleanup whose cutoff is far in the future. -/
theorem cleanup_failsafe_amended_witness :
    ("k1", (⟨['y'], [("created_at", MetaValue.n 5)]⟩ : StoredDoc)) ∈
      (cleanupOldDocuments false "9999-12-31" 0
        [("k1", ⟨['y'], [("created_at", .n 5)]⟩), ("k2", ⟨['z'], []⟩)]).1 :=
  cleanup_failsafe_amended "9999-12-31" 0
    [("k1", ⟨['y'], [("created_at", .n 5)]⟩), ("k2", ⟨['z'], []⟩)]
    (by decide) "k1" ⟨['y'], [("created_at", .n 5)]⟩ (by decide)
    (by intro str h; simp [alistLookup] at h)

/-- C6: search ordering. Every `search_documents` result list is
non-decreasing in `distance`, and for every backend response that formats
without fault, the results at any fixed distance keep the relative order in
which the backend returned them (Python's `sorted` is stable; no secondary
key is imposed). -/
theorem search_ordering_stable :
    (∀ outcome, (searchDocuments outcome).Pairwise distLE) ∧
    (∀ r l d, formatDocuments r = some l →
      (searchDocuments (some r)).filter (fun a => decide (a.distance = d)) =
        l.filter (fun a => decide (a.distance = d))) := by
  constructor
  · intro outcome
    cases outcome with
    | none => exact List.Pairwise.nil
    | some r =>
      show (match formatDocuments r with
        | none => []
        | some documents => sortByDist documents).Pairwise distLE
      cases formatDocuments r with
      | none => exact List.Pairwise.nil
      | some documents => exact pairwise_sortByDist documents
  · intro r l d hfmt
    have hs : searchDocuments (some r) = sortByDist l := by
      show (match formatDocuments r with
        | none => []
        | some documents => sortByDist documents) = sortByDist l
      rw [hfmt]
    rw [hs]
    exact filter_sortByDist d l

/-- C6 witness: a backend response with a tie at distance 5 — the two tied
hits keep their backend order among the distance-5 results. -/
theorem search_ordering_stable_witness :
    (searchDocuments (some ⟨[['a'], ['b'], ['c']], [5, 2, 5], [[], [], []],
        ["i1", "i2", "i3"]⟩)).filter (fun a => decide (a.distance = 5)) =
      ([⟨some "i1", ['a'], ['a'], [], 5⟩, ⟨some "i2", ['b'], ['b'], [], 2⟩,
        ⟨some "i3", ['c'], ['c'], [], 5⟩] :
        List DocData).filter (fun a => decide (a.distance = 5)) :=
  search_ordering_stable.2 ⟨[['a'], ['b'], ['c']], [5, 2, 5], [[], [], []],
      ["i1", "i2", "i3"]⟩
    [⟨some "i1", ['a'], ['a'], [], 5⟩, ⟨some "i2", ['b'], ['b'], [], 2⟩,
     ⟨some "i3", ['c'], ['c'], [], 5⟩] 5 (by decide)

/-- C7: search is best-effort. A backend fault (the `except` branch) yields
`[]`, and an empty backend hit list — the empty collection or a filter no
document satisfies — also yields `[]`; `search_documents` is a total
function of the backend outcome, so it never raises once initialized. -/
theorem search_best_effort :
    searchDocuments none = [] ∧
    (∀ r, r.documents = [] → searchDocuments (some r) = []) := by
  constructor
  · rfl
  · intro r h
    simp [searchDocuments, formatDocuments, h, sortByDist]

/-- C7 witness: a fault and an empty hit list both return the empty list. -/
theorem search_best_effort_witness :
    searchDocuments (some ⟨[], [3], [], ["x"]⟩) = [] :=
  search_best_effort.2 ⟨[], [3], [], ["x"]⟩ rfl

/-- C8: stats postcondition. The sample never holds more than 100 documents
whatever the collection size; `totalContentLength` is computed from that
sample only; `avgContentLength` is the floor division of the sampled total
by the sample size, and 0 for an empty sample (`Nat` division — no
division-by-zero fault, mirroring the guarded Python expression). -/
theorem stats_postcondition (name : String) (init : Bool) (c : Collection) :
    (statsSample c).length ≤ 100 ∧
    (getCollectionStats false name init c).totalContentLength =
      ((statsSample c).map fun p => contentLengthContribution p.2.metadata).sum ∧
    (getCollectionStats false name init c).avgContentLength =
      (if (statsSample c).isEmpty then 0
       else (getCollectionStats false name init c).totalContentLength /
         (statsSample c).length) := by
  refine ⟨?_, rfl, rfl⟩
  unfold statsSample
  rw [List.length_take]
  omega
